import Mathlib

/-!
The goweb type `webcontext.WebContext`

A shallow embedding of `src/webcontext/web_context.go`.

The Go struct `WebContext` becomes a Lean structure; every method with a pointer receiver
becomes a function that takes the context (and the store of mutable objects it points to)
and returns the updated context and store next to the Go return values.

Mutable objects that the context only holds by reference live in a `World`:

* the tables behind `objects.Map` values (Go maps are reference types),
* the body streams behind `http.Request.Body`.

Each method also reports the calls it made to its collaborators (`ioutil.ReadAll`,
`CodecService.GetCodec`, `Codec.Unmarshal`), in the order the source makes them.
-/

namespace webcontext

/-! ## Go values -/

/-- A byte slice. Go's nil slice and empty slice both have length zero and are both `[]`. -/
abbrev Bytes := List UInt8

/-- Go `error` values. The package never builds or inspects one: it compares them with nil and
hands them on. The constructors name what the collaborators can report, and `wrapped` is an
error that carries another one as its cause. -/
inductive GoError where
  | streamFailure (detail : String)
  | noCodec (contentType : String)
  | decoderFailure (detail : String)
  | wrapped (kind : String) (cause : GoError)
  deriving DecidableEq, Repr

/-- Go `interface{}` values as far as this package meets them: the results of a decoder and the
entries of an `objects.Map`. `arr` is `[]interface{}`, `obj` is a decoded
`map[string]interface{}` (never mutated here, so kept by value), `omap` is an `objects.Map`
held by reference (`none` is the nil map). Numbers are kept as integers; no arithmetic is done
on them. -/
inductive Value where
  | null
  | bool (b : Bool)
  | num (n : Int)
  | str (s : String)
  | arr (items : List Value)
  | obj (fields : List (String × Value))
  | omap (ref : Option Nat)

/-- The table behind a Go map with string keys: the first entry for a key is its value. -/
abbrev Table := List (String × Value)

/-- Go map read `t[key]`: the stored value, or the zero value (nil interface) when absent. -/
def Table.index (t : Table) (key : String) : Value :=
  match t.lookup key with
  | some v => v
  | none => Value.null

/-- Go map write `t[key] = v`: the key keeps one entry. -/
def Table.assign (t : Table) (key : String) (v : Value) : Table :=
  (key, v) :: t.filter (fun kv => kv.1 != key)

/-! ## Body streams and `ioutil.ReadAll` -/

/-- One `Read` on a stream: some bytes, or a failure other than `io.EOF`. -/
inductive ReadStep where
  | chunk (bs : Bytes)
  | fail (e : GoError)

/-- An `io.ReadCloser`: the outcomes its coming `Read` calls will have; once they are used up
every further `Read` reports `io.EOF`. -/
structure Body where
  steps : List ReadStep

/-- Result of `ioutil.ReadAll`: the bytes gathered, the error (nil on `io.EOF`), and the stream
as it is left. -/
structure ReadAllResult where
  bytes : Bytes
  err : Option GoError
  rest : Body

/-- The loop of `ioutil.ReadAll`: keep reading until `io.EOF` (success) or another error. -/
def ReadAllFrom : List ReadStep → Bytes → ReadAllResult
  | [], acc => ⟨acc, none, ⟨[]⟩⟩
  | ReadStep.chunk bs :: rest, acc => ReadAllFrom rest (acc ++ bs)
  | ReadStep.fail e :: rest, acc => ⟨acc, some e, ⟨rest⟩⟩

/-- The Go function `ioutil.ReadAll(r)`. -/
def ReadAll (b : Body) : ReadAllResult :=
  ReadAllFrom b.steps []

/-! ## Collaborators -/

/-- A `codecs.Codec`, as far as it is used here. `Unmarshal bytes` is
`codec.Unmarshal(bytes, &obj)` on a fresh nil `obj`: what `obj` holds afterwards, and the
error returned. -/
structure Codec where
  Unmarshal : Bytes → Value × Option GoError

/-- A `codecservices.CodecService`: `GetCodec(contentType) (Codec, error)`. When the error is
not nil the source drops the codec, so the pair is an `Except`. -/
structure CodecService where
  GetCodec : String → Except GoError Codec

/-- An `http.Header`: canonical header names with their values. -/
abbrev Header := List (String × List String)

/-- The Go method `http.Header.Get`: first value stored for the name, `""` when there is none.
(The name `"Content-Type"` used by the source is already canonical.) -/
def Header.Get (h : Header) (name : String) : String :=
  match h.lookup name with
  | some (v :: _) => v
  | _ => ""

/-- The parts of an `http.Request` the package reads. `Body` refers to a stream of the world. -/
structure Request where
  Method : String
  URLPath : String
  Header : Header
  Body : Nat

/-- An `http.ResponseWriter`, which the package stores and never uses: only its identity. -/
structure ResponseWriter where
  ident : Nat
  deriving DecidableEq

/-- Modelled from the spec: `paths.Path` and `paths.NewPath` of goweb/paths, whose source is not
part of `src/`. The spec calls the result of parsing "an opaque parsed representation" of the
raw path string with no failure path; it is kept as that raw string. -/
structure Path where
  RawPath : String
  deriving DecidableEq

/-- Modelled from the spec: `paths.NewPath(raw)`, see `Path`. -/
def NewPath (raw : String) : Path := ⟨raw⟩

/-! ## The world and the context -/

/-- The mutable objects a context refers to. -/
structure World where
  maps : List Table
  bodies : List Body

/-- The table a map reference points to. -/
def World.table (w : World) (a : Nat) : Table := w.maps.getD a []

/-- The stream a request body reference points to. -/
def World.body (w : World) (a : Nat) : Body := w.bodies.getD a ⟨[]⟩

/-- Go `make(objects.Map)`: a new empty table, with its reference. -/
def World.makeMap (w : World) : Nat × World :=
  (w.maps.length, { w with maps := w.maps ++ [[]] })

/-- Go map assignment `m[key] = v` through the reference `a`. -/
def World.mapAssign (w : World) (a : Nat) (key : String) (v : Value) : World :=
  { w with maps := w.maps.set a ((w.table a).assign key v) }

/-- Go map read `m[key]` through a map value `m`: reading the nil map gives the zero value. -/
def World.mapIndex (w : World) (m : Option Nat) (key : String) : Value :=
  match m with
  | none => Value.null
  | some a => (w.table a).index key

/-- The Go struct `WebContext`. `data : objects.Map` is `none` for the nil map; `requestBody`
is `[]` for the nil slice. -/
structure WebContext where
  path : Path
  data : Option Nat
  httpRequest : Request
  httpResponseWriter : ResponseWriter
  requestBody : Bytes
  codecService : CodecService

/-- A call made to a collaborator. -/
inductive Call where
  | readAll (body : Nat)
  | getCodec (contentType : String)
  | unmarshal (bytes : Bytes)
  deriving DecidableEq, Repr

/-- A runtime panic of the Go program. -/
inductive Panic where
  | interfaceConversion (wanted : String)
  deriving DecidableEq, Repr

/-! ## The methods of `WebContext` -/

/-- The Go function `NewWebContext`. -/
def NewWebContext (responseWriter : ResponseWriter) (request : Request)
    (codecService : CodecService) : WebContext :=
  { path := NewPath request.URLPath
    data := none
    httpRequest := request
    httpResponseWriter := responseWriter
    requestBody := []
    codecService := codecService }

/-- The Go method `WebContext.CodecService`. -/
def CodecServiceOf (c : WebContext) : CodecService := c.codecService

/-- The Go method `WebContext.Path`. -/
def PathOf (c : WebContext) : Path := c.path

/-- The Go method `WebContext.HttpRequest`. -/
def HttpRequest (c : WebContext) : Request := c.httpRequest

/-- The Go method `WebContext.HttpResponseWriter`. -/
def HttpResponseWriter (c : WebContext) : ResponseWriter := c.httpResponseWriter

/-- The Go method `WebContext.SetHttpResponseWriter`. -/
def SetHttpResponseWriter (c : WebContext) (responseWriter : ResponseWriter) : WebContext :=
  { c with httpResponseWriter := responseWriter }

/-- The Go method `WebContext.SetHttpRequest`. -/
def SetHttpRequest (c : WebContext) (httpRequest : Request) : WebContext :=
  { c with httpRequest := httpRequest }

/-- The Go method `WebContext.Data`: the bag returned, the context and the world afterwards. -/
def Data (c : WebContext) (w : World) : Option Nat × WebContext × World :=
  match c.data with
  | none =>
    let made := w.makeMap
    let c1 := { c with data := some made.1 }
    (c1.data, c1, made.2)
  | some a => (some a, c, w)

/-- What `RequestBody` returns, the state it leaves and the calls it made. -/
structure BodyResult where
  bytes : Bytes
  err : Option GoError
  ctx : WebContext
  world : World
  calls : List Call

/-- The Go method `WebContext.RequestBody`. -/
def RequestBody (c : WebContext) (w : World) : BodyResult :=
  if c.requestBody.length > 0 then
    ⟨c.requestBody, none, c, w, []⟩
  else
    let ref := (HttpRequest c).Body
    let r := ReadAll (w.body ref)
    let w1 := { w with bodies := w.bodies.set ref r.rest }
    match r.err with
    | some bodyErr => ⟨[], some bodyErr, c, w1, [Call.readAll ref]⟩
    | none =>
      let c1 := { c with requestBody := r.bytes }
      ⟨c1.requestBody, none, c1, w1, [Call.readAll ref]⟩

/-- What `RequestData` returns, the state it leaves and the calls it made. -/
structure DataResult where
  value : Value
  err : Option GoError
  ctx : WebContext
  world : World
  calls : List Call

/-- The Go method `WebContext.RequestData`. -/
def RequestData (c : WebContext) (w : World) : DataResult :=
  let b := RequestBody c w
  match b.err with
  | some bodyErr => ⟨Value.null, some bodyErr, b.ctx, b.world, b.calls⟩
  | none =>
    let contentType := (HttpRequest b.ctx).Header.Get "Content-Type"
    match (CodecServiceOf b.ctx).GetCodec contentType with
    | Except.error codecErr =>
      ⟨Value.null, some codecErr, b.ctx, b.world, b.calls ++ [Call.getCodec contentType]⟩
    | Except.ok codec =>
      let out := codec.Unmarshal b.bytes
      ⟨out.1, out.2, b.ctx, b.world,
        b.calls ++ [Call.getCodec contentType, Call.unmarshal b.bytes]⟩

/-- What `RequestDataArray` does: it returns a slice and an error, or panics. -/
structure ArrayResult where
  outcome : Except Panic (List Value × Option GoError)
  ctx : WebContext
  world : World
  calls : List Call

/-- The Go method `WebContext.RequestDataArray`. The last line is the one-result type assertion
`obj.([]interface{})`, which panics when `obj` holds anything but a `[]interface{}`. -/
def RequestDataArray (c : WebContext) (w : World) : ArrayResult :=
  let d := RequestData c w
  match d.err with
  | some err => ⟨Except.ok ([], some err), d.ctx, d.world, d.calls⟩
  | none =>
    match d.value with
    | Value.arr items => ⟨Except.ok (items, none), d.ctx, d.world, d.calls⟩
    | _ => ⟨Except.error (Panic.interfaceConversion "[]interface\x7b\x7d"), d.ctx, d.world, d.calls⟩

/-- Go `strings.Split(s, ".")` on the characters of `s`: the pieces between the dots. There is
always at least one piece. -/
def splitDots : List Char → List (List Char)
  | [] => [[]]
  | ch :: rest =>
    if ch = '.' then [] :: splitDots rest
    else
      match splitDots rest with
      | seg :: segs => (ch :: seg) :: segs
      | [] => [[ch]]

/-- Go `strings.Split(keypath, objects.PathSeparator)`, the separator being `"."`. -/
def splitKeypath (keypath : String) : List String :=
  (splitDots keypath.data).map String.mk

/-- The table a map value reads from: the nil map reads as the empty table. -/
def World.contents (w : World) (m : Option Nat) : Table :=
  match m with
  | none => []
  | some a => w.table a

/-- One turn of the loop of `objects.Map.Get` on a segment that is not the last: when
`obj[field]` is an `objects.Map` or a `map[string]interface{}` the walk goes into it, otherwise
`obj` stays as it is. -/
def objects.Map.descend (w : World) (obj : Table) (field : String) : Table :=
  match obj.index field with
  | Value.omap m => w.contents m
  | Value.obj fields => fields
  | _ => obj

/-- The loop of `objects.Map.Get` from the segment `field` on, `rest` being the segments after
it: the last segment returns `obj[field]`. -/
def objects.Map.walk (w : World) (obj : Table) (field : String) : List String → Value
  | [] => obj.index field
  | next :: rest => objects.Map.walk w (objects.Map.descend w obj field) next rest

/-- The method `Get` of `objects.Map`, from the library stretchrcom/stew/objects that the
package imports (no part of this repository):

    func (d Map) Get(keypath string) interface{} {
      var segs []string = strings.Split(keypath, PathSeparator)
      obj := d
      for fieldIndex, field := range segs {
        if fieldIndex == len(segs)-1 { return obj[field] }
        switch obj[field].(type) {
        case Map: obj = obj[field].(Map)
        case map[string]interface{}: obj = Map(obj[field].(map[string]interface{}))
        }
      }
      return obj
    }

The key is a path: it is cut at every `"."` and the walk goes down through nested maps. -/
def objects.Map.Get (w : World) (d : Option Nat) (keypath : String) : Value :=
  match splitKeypath keypath with
  | [] => Value.omap d
  | field :: rest => objects.Map.walk w (w.contents d) field rest

/-- The method `GetMap` of `objects.Map`, from the same library:

    func (d Map) GetMap(keypath string) Map { return d.Get(keypath).(Map) }

The type assertion has one result, so it panics when the value found is missing (nil) or is
anything but an `objects.Map`. -/
def objects.Map.GetMap (w : World) (d : Option Nat) (keypath : String) :
    Except Panic (Option Nat) :=
  match objects.Map.Get w d keypath with
  | Value.omap m => Except.ok m
  | _ => Except.error (Panic.interfaceConversion "objects.Map")

/-- The Go method `WebContext.PathParams`. The constant `context.DataKeyPathParameters` is
declared in goweb/context, outside `src/`, and is a parameter here. Note that the source reads
the field `c.data` and does not go through `Data()`. -/
def PathParams (DataKeyPathParameters : String) (c : WebContext) (w : World) :
    Except Panic (Option Nat) :=
  objects.Map.GetMap w c.data DataKeyPathParameters

/-- The Go method `WebContext.PathParam`: a panic of `PathParams` goes through; otherwise the
checked type assertion `val.(string)` gives the string or `""`. -/
def PathParam (DataKeyPathParameters : String) (c : WebContext) (w : World) (key : String) :
    Except Panic String :=
  match PathParams DataKeyPathParameters c w with
  | Except.error p => Except.error p
  | Except.ok params =>
    match objects.Map.Get w params key with
    | Value.str valString => Except.ok valString
    | _ => Except.ok ""

/-! ## Test doubles for the collaborators, used in the concrete examples -/

/-- The bytes of `{"a":1}`. -/
def bodyObject : Bytes := [123, 34, 97, 34, 58, 49, 125]

/-- The bytes of `[1,2,3]`. -/
def bodyArray : Bytes := [91, 49, 44, 50, 44, 51, 93]

/-- The bytes of the malformed `{"a":`. -/
def bodyMalformed : Bytes := [123, 34, 97, 34, 58]

/-- The failure the stand-in decoder reports. -/
def jsonFailure : GoError := GoError.decoderFailure "unexpected end of JSON input"

/-- A stand-in for a JSON decoder: it knows the two well-formed bodies above and rejects
everything else, leaving `obj` nil. -/
def jsonCodec : Codec where
  Unmarshal := fun bs =>
    if bs = bodyObject then (Value.obj [("a", Value.num 1)], none)
    else if bs = bodyArray then (Value.arr [Value.num 1, Value.num 2, Value.num 3], none)
    else (Value.null, some jsonFailure)

/-- Modelled from the spec: a codec registry, `lookup(content-type string) -> decoder |
not-found`, where a missing decoder is a "no codec available" error identifying the content
type. The registry's source (stretchrcom/codecs) is not part of `src/`. -/
def tableRegistry (entries : List (String × Codec)) : CodecService where
  GetCodec := fun contentType =>
    match entries.lookup contentType with
    | some codec => Except.ok codec
    | none => Except.error (GoError.noCodec contentType)

/-- A registry with the stand-in JSON decoder under two content-type strings. -/
def jsonRegistry : CodecService :=
  tableRegistry [("application/json", jsonCodec), ("application/json; charset=utf-8", jsonCodec)]

/-- A request whose body is stream `0` of the world, with the given content type. -/
def requestWith (contentType : String) : Request :=
  { Method := "post", URLPath := "/people/123",
    Header := [("Content-Type", [contentType])], Body := 0 }

/-- A fresh context for `requestWith contentType`. -/
def contextWith (contentType : String) : WebContext :=
  NewWebContext ⟨0⟩ (requestWith contentType) jsonRegistry

/-- A world with no maps whose stream `0` will deliver the given read outcomes. -/
def worldWith (steps : List ReadStep) : World :=
  { maps := [], bodies := [⟨steps⟩] }

/-- The sub-map `{"id":"42"}`, as table `0` of a world with an empty body stream. -/
def worldWithParams : World :=
  { maps := [[("id", Value.str "42")]], bodies := [⟨[]⟩] }

/-- A world whose table `0` is the sub-map with one entry, the string `"x"` under the dotted key
`"a.b"`. -/
def worldWithDottedParam : World :=
  { maps := [[("a.b", Value.str "x")]], bodies := [⟨[]⟩] }

/-- A request for another path whose body is stream `1` of the world. -/
def otherRequest : Request :=
  { Method := "put", URLPath := "/animals/7", Header := [], Body := 1 }

/-- A world with two body streams, both unread. -/
def worldTwoBodies : World :=
  { maps := [], bodies := [⟨[ReadStep.chunk bodyObject]⟩, ⟨[ReadStep.chunk bodyArray]⟩] }

/-- The number of `ReadAll` calls among some calls. -/
def readCount (calls : List Call) : Nat :=
  (calls.filter (fun k => match k with | Call.readAll _ => true | _ => false)).length

/-! ## Facts about `ReadAll` and `RequestBody` -/

theorem ReadAllFrom_rest_of_ok (steps : List ReadStep) (acc : Bytes)
    (h : (ReadAllFrom steps acc).err = none) : (ReadAllFrom steps acc).rest = ⟨[]⟩ := by
  induction steps generalizing acc with
  | nil => rfl
  | cons s rest ih =>
    cases s with
    | chunk bs => exact ih (acc ++ bs) h
    | fail e => simp [ReadAllFrom] at h

theorem ReadAll_empty : ReadAll ⟨[]⟩ = ⟨[], none, ⟨[]⟩⟩ := rfl

theorem RequestBody_cached (c : WebContext) (w : World) (h : c.requestBody ≠ []) :
    RequestBody c w = ⟨c.requestBody, none, c, w, []⟩ := by
  have hlen : c.requestBody.length > 0 := List.length_pos.mpr h
  simp [RequestBody, hlen]

theorem RequestBody_fresh (c : WebContext) (w : World) (h : c.requestBody = []) :
    RequestBody c w =
      (match (ReadAll (w.body c.httpRequest.Body)).err with
       | some bodyErr =>
         ⟨[], some bodyErr, c,
           { w with bodies := w.bodies.set c.httpRequest.Body
                      (ReadAll (w.body c.httpRequest.Body)).rest },
           [Call.readAll c.httpRequest.Body]⟩
       | none =>
         ⟨(ReadAll (w.body c.httpRequest.Body)).bytes, none,
           { c with requestBody := (ReadAll (w.body c.httpRequest.Body)).bytes },
           { w with bodies := w.bodies.set c.httpRequest.Body
                      (ReadAll (w.body c.httpRequest.Body)).rest },
           [Call.readAll c.httpRequest.Body]⟩) := by
  simp [RequestBody, h, HttpRequest]

theorem RequestBody_keeps_request (c : WebContext) (w : World) :
    (RequestBody c w).ctx.httpRequest = c.httpRequest ∧
    (RequestBody c w).ctx.codecService = c.codecService ∧
    (RequestBody c w).ctx.path = c.path ∧
    (RequestBody c w).ctx.data = c.data ∧
    (RequestBody c w).ctx.httpResponseWriter = c.httpResponseWriter := by
  by_cases h : c.requestBody = []
  · rw [RequestBody_fresh c w h]
    cases (ReadAll (w.body c.httpRequest.Body)).err <;> simp
  · rw [RequestBody_cached c w h]
    simp

theorem World.body_set_self_of_ok (w : World) (ref : Nat)
    (h : (ReadAll (w.body ref)).err = none) :
    World.body { w with bodies := w.bodies.set ref (ReadAll (w.body ref)).rest } ref = ⟨[]⟩ := by
  have hrest : (ReadAll (w.body ref)).rest = ⟨[]⟩ := ReadAllFrom_rest_of_ok _ _ h
  rw [hrest]
  by_cases hlt : ref < w.bodies.length
  · simp [World.body, List.getD_eq_getElem?_getD, List.getElem?_set, hlt]
  · have hge : w.bodies.length ≤ ref := Nat.le_of_not_lt hlt
    simp [World.body, List.getD_eq_getElem?_getD, List.getElem?_eq_none, hge]

/-! ## Reading the body twice -/

/-- C1, as stated, fails on an empty body: the first `RequestBody` succeeds, and the second one
does not answer from the cache but calls `ReadAll` on the stream again, so the stream is read
twice rather than once. -/
theorem RequestBody_empty_body_read_again :
    (RequestBody (contextWith "application/json") (worldWith [])).err = none ∧
    ¬ ((RequestBody (RequestBody (contextWith "application/json") (worldWith [])).ctx
          (RequestBody (contextWith "application/json") (worldWith [])).world).calls = [] ∧
        readCount
          ((RequestBody (contextWith "application/json") (worldWith [])).calls ++
            (RequestBody (RequestBody (contextWith "application/json") (worldWith [])).ctx
              (RequestBody (contextWith "application/json") (worldWith [])).world).calls) = 1) := by
  decide

/-- C1, amended: for every context and world where `RequestBody` succeeds, a second
`RequestBody` returns the same bytes with no error. When the bytes are not empty the second
call makes no call at all and leaves context and world alone; if the cache was empty at the
start the first call read the stream once, so the stream is read exactly once. When the first
call read zero bytes, the cache stays empty and the second call reads the stream again. -/
theorem RequestBody_twice (c : WebContext) (w : World)
    (hok : (RequestBody c w).err = none) :
    (RequestBody (RequestBody c w).ctx (RequestBody c w).world).bytes = (RequestBody c w).bytes ∧
    (RequestBody (RequestBody c w).ctx (RequestBody c w).world).err = none ∧
    ((RequestBody c w).bytes ≠ [] →
      (RequestBody (RequestBody c w).ctx (RequestBody c w).world).calls = [] ∧
      (RequestBody (RequestBody c w).ctx (RequestBody c w).world).ctx = (RequestBody c w).ctx ∧
      (RequestBody (RequestBody c w).ctx (RequestBody c w).world).world =
        (RequestBody c w).world) ∧
    (c.requestBody = [] → (RequestBody c w).calls = [Call.readAll c.httpRequest.Body]) ∧
    (c.requestBody = [] → (RequestBody c w).bytes = [] →
      (RequestBody (RequestBody c w).ctx (RequestBody c w).world).calls =
        [Call.readAll c.httpRequest.Body]) := by
  by_cases hc : c.requestBody = []
  · rw [RequestBody_fresh c w hc] at hok ⊢
    cases herr : (ReadAll (w.body c.httpRequest.Body)).err with
    | some e => rw [herr] at hok; simp at hok
    | none =>
      simp only [herr]
      have hbody := World.body_set_self_of_ok w c.httpRequest.Body herr
      by_cases hb : (ReadAll (w.body c.httpRequest.Body)).bytes = []
      · rw [RequestBody_fresh _ _ (by simpa using hb)]
        simp [hb, hbody, ReadAll_empty]
      · rw [RequestBody_cached _ _ (by simpa using hb)]
        simp [hb]
  · rw [RequestBody_cached c w hc]
    rw [RequestBody_cached c w hc]
    simp [hc]

/-- Witness for C1 (amended): the body `{"a":1}` is read once, and the second call answers from
the cache. -/
theorem RequestBody_twice_witness :
    (RequestBody (contextWith "application/json") (worldWith [ReadStep.chunk bodyObject])).err
        = none ∧
    (RequestBody
        (RequestBody (contextWith "application/json")
          (worldWith [ReadStep.chunk bodyObject])).ctx
        (RequestBody (contextWith "application/json")
          (worldWith [ReadStep.chunk bodyObject])).world).bytes = bodyObject ∧
    (RequestBody
        (RequestBody (contextWith "application/json")
          (worldWith [ReadStep.chunk bodyObject])).ctx
        (RequestBody (contextWith "application/json")
          (worldWith [ReadStep.chunk bodyObject])).world).calls = [] := by
  have h := RequestBody_twice (contextWith "application/json")
    (worldWith [ReadStep.chunk bodyObject]) (by decide)
  refine ⟨by decide, ?_, ?_⟩
  · rw [h.1]; decide
  · exact (h.2.2.1 (by decide)).1

/-! ## Decoding the body -/

theorem RequestData_of_body_error (c : WebContext) (w : World) (e : GoError)
    (h : (RequestBody c w).err = some e) :
    RequestData c w =
      ⟨Value.null, some e, (RequestBody c w).ctx, (RequestBody c w).world,
        (RequestBody c w).calls⟩ := by
  simp [RequestData, h]

theorem RequestData_of_codec_error (c : WebContext) (w : World) (e : GoError)
    (hb : (RequestBody c w).err = none)
    (hd : c.codecService.GetCodec (c.httpRequest.Header.Get "Content-Type") = Except.error e) :
    RequestData c w =
      ⟨Value.null, some e, (RequestBody c w).ctx, (RequestBody c w).world,
        (RequestBody c w).calls ++ [Call.getCodec (c.httpRequest.Header.Get "Content-Type")]⟩ := by
  obtain ⟨hreq, hcs, -⟩ := RequestBody_keeps_request c w
  simp [RequestData, hb, HttpRequest, CodecServiceOf, hreq, hcs, hd]

theorem RequestData_of_codec (c : WebContext) (w : World) (d : Codec)
    (hb : (RequestBody c w).err = none)
    (hd : c.codecService.GetCodec (c.httpRequest.Header.Get "Content-Type") = Except.ok d) :
    RequestData c w =
      ⟨(d.Unmarshal (RequestBody c w).bytes).1, (d.Unmarshal (RequestBody c w).bytes).2,
        (RequestBody c w).ctx, (RequestBody c w).world,
        (RequestBody c w).calls ++
          [Call.getCodec (c.httpRequest.Header.Get "Content-Type"),
            Call.unmarshal (RequestBody c w).bytes]⟩ := by
  obtain ⟨hreq, hcs, -⟩ := RequestBody_keeps_request c w
  simp [RequestData, hb, HttpRequest, CodecServiceOf, hreq, hcs, hd]

/-- C2: when the body read succeeds with bytes `b`, the request's Content-Type header value
is `h`, the registry asked for exactly `h` gives a decoder `d`, and `d` decodes `b` to `v`
without error, then `RequestData` returns `v` and no error; the registry was asked once, with
the string `h` as it stands in the header, and the decoder was run once, on `b`. -/
theorem RequestData_decodes (c : WebContext) (w : World) (b : Bytes) (h : String) (d : Codec)
    (v : Value)
    (hok : (RequestBody c w).err = none)
    (hbytes : (RequestBody c w).bytes = b)
    (hh : (HttpRequest c).Header.Get "Content-Type" = h)
    (hd : (CodecServiceOf c).GetCodec h = Except.ok d)
    (hv : d.Unmarshal b = (v, none)) :
    (RequestData c w).value = v ∧ (RequestData c w).err = none ∧
    (RequestData c w).calls =
      (RequestBody c w).calls ++ [Call.getCodec h, Call.unmarshal b] := by
  simp only [HttpRequest] at hh
  simp only [CodecServiceOf] at hd
  subst hh
  rw [RequestData_of_codec c w d hok hd, hbytes, hv]
  exact ⟨rfl, rfl, rfl⟩

/-- Witness for C2: the body `{"a":1}` with the header `application/json; charset=utf-8`, looked up
under that very string. -/
theorem RequestData_decodes_witness :
    (RequestData (contextWith "application/json; charset=utf-8")
        (worldWith [ReadStep.chunk bodyObject])).value = Value.obj [("a", Value.num 1)] ∧
    (RequestData (contextWith "application/json; charset=utf-8")
        (worldWith [ReadStep.chunk bodyObject])).err = none ∧
    (RequestData (contextWith "application/json; charset=utf-8")
        (worldWith [ReadStep.chunk bodyObject])).calls =
      [Call.readAll 0, Call.getCodec "application/json; charset=utf-8",
        Call.unmarshal bodyObject] :=
  RequestData_decodes (contextWith "application/json; charset=utf-8")
    (worldWith [ReadStep.chunk bodyObject]) bodyObject "application/json; charset=utf-8"
    jsonCodec (Value.obj [("a", Value.num 1)]) (by decide) (by decide) (by decide) rfl rfl

/-- C5: on a context with an empty body cache whose stream read fails with `e`, `RequestBody`
returns no bytes and exactly `e`, and `RequestData` returns no value and exactly `e`, having
called neither the registry nor a decoder. Both leave the context as it was, cache empty, so
the failure is not remembered: the next `RequestBody` reads the stream again. -/
theorem RequestBody_read_failure (c : WebContext) (w : World) (e : GoError)
    (hc : c.requestBody = [])
    (hf : (ReadAll (w.body (HttpRequest c).Body)).err = some e) :
    (RequestBody c w).bytes = [] ∧ (RequestBody c w).err = some e ∧
    (RequestBody c w).ctx = c ∧ (RequestBody c w).ctx.requestBody = [] ∧
    (RequestBody c w).calls = [Call.readAll (HttpRequest c).Body] ∧
    (RequestData c w).value = Value.null ∧ (RequestData c w).err = some e ∧
    (RequestData c w).ctx = c ∧ (RequestData c w).ctx.requestBody = [] ∧
    (RequestData c w).calls = [Call.readAll (HttpRequest c).Body] ∧
    (RequestBody (RequestBody c w).ctx (RequestBody c w).world).calls =
      [Call.readAll (HttpRequest c).Body] ∧
    (RequestBody (RequestData c w).ctx (RequestData c w).world).calls =
      [Call.readAll (HttpRequest c).Body] := by
  simp only [HttpRequest] at hf ⊢
  have hrb : RequestBody c w =
      ⟨[], some e, c,
        { w with bodies := w.bodies.set c.httpRequest.Body
                   (ReadAll (w.body c.httpRequest.Body)).rest },
        [Call.readAll c.httpRequest.Body]⟩ := by
    rw [RequestBody_fresh c w hc, hf]
  have hrd := RequestData_of_body_error c w e (by rw [hrb])
  have again : ∀ w1 : World, (RequestBody c w1).calls = [Call.readAll c.httpRequest.Body] := by
    intro w1
    rw [RequestBody_fresh c w1 hc]
    cases (ReadAll (w1.body c.httpRequest.Body)).err <;> rfl
  rw [hrd, hrb]
  exact ⟨rfl, rfl, rfl, hc, rfl, rfl, rfl, rfl, hc, rfl, again _, again _⟩

/-- Witness for C5: a stream that breaks after some bytes. -/
theorem RequestBody_read_failure_witness :
    (RequestBody (contextWith "application/json")
        (worldWith [ReadStep.chunk bodyMalformed,
          ReadStep.fail (GoError.streamFailure "connection reset")])).err =
      some (GoError.streamFailure "connection reset") ∧
    (RequestData (contextWith "application/json")
        (worldWith [ReadStep.chunk bodyMalformed,
          ReadStep.fail (GoError.streamFailure "connection reset")])).calls = [Call.readAll 0] :=
  have h := RequestBody_read_failure (contextWith "application/json")
    (worldWith [ReadStep.chunk bodyMalformed,
      ReadStep.fail (GoError.streamFailure "connection reset")])
    (GoError.streamFailure "connection reset") rfl (by decide)
  ⟨h.2.1, h.2.2.2.2.2.2.2.2.2.1⟩

/-- C7: when the body read succeeds and the registry, asked for the request's Content-Type
header value `h`, has no decoder and answers with its error `e`, `RequestData` returns no value
and exactly `e`; the registry was asked with `h` and no decoder was run. For a registry that
reports a missing decoder as the "no codec available" error naming the content type, that
error names `h`. -/
theorem RequestData_no_codec (c : WebContext) (w : World) (h : String) (e : GoError)
    (hok : (RequestBody c w).err = none)
    (hh : (HttpRequest c).Header.Get "Content-Type" = h)
    (hd : (CodecServiceOf c).GetCodec h = Except.error e) :
    (RequestData c w).value = Value.null ∧ (RequestData c w).err = some e ∧
    (RequestData c w).calls = (RequestBody c w).calls ++ [Call.getCodec h] ∧
    (∀ bs, Call.unmarshal bs ∉ (RequestData c w).calls) ∧
    (∀ entries, c.codecService = tableRegistry entries → e = GoError.noCodec h) := by
  simp only [HttpRequest] at hh
  simp only [CodecServiceOf] at hd
  subst hh
  rw [RequestData_of_codec_error c w e hok hd]
  refine ⟨rfl, rfl, rfl, ?_, ?_⟩
  · intro bs hmem
    simp only [List.mem_append, List.mem_singleton] at hmem
    rcases hmem with hmem | hmem
    · by_cases hc : c.requestBody = []
      · rw [RequestBody_fresh c w hc] at hmem
        cases hr : (ReadAll (w.body c.httpRequest.Body)).err <;> rw [hr] at hmem <;>
          simp at hmem
      · rw [RequestBody_cached c w hc] at hmem
        simp at hmem
    · cases hmem
  · intro entries hreg
    rw [hreg] at hd
    simp only [tableRegistry] at hd
    cases hl : entries.lookup (c.httpRequest.Header.Get "Content-Type") with
    | some codec => rw [hl] at hd; cases hd
    | none =>
      rw [hl] at hd
      injection hd with hd
      exact hd.symm

/-- Witness for C7: the content type `application/unknown`. -/
theorem RequestData_no_codec_witness :
    (RequestData (contextWith "application/unknown")
        (worldWith [ReadStep.chunk bodyObject])).value = Value.null ∧
    (RequestData (contextWith "application/unknown")
        (worldWith [ReadStep.chunk bodyObject])).err =
      some (GoError.noCodec "application/unknown") :=
  have h := RequestData_no_codec (contextWith "application/unknown")
    (worldWith [ReadStep.chunk bodyObject]) "application/unknown"
    (GoError.noCodec "application/unknown") (by decide) (by decide) rfl
  ⟨h.1, h.2.1⟩

/-- C6, as stated, fails: with the malformed body and the JSON content type the stand-in
decoder rejects the bytes with `jsonFailure`, and `RequestData` returns `jsonFailure` itself,
which is not an error of any kind wrapping `jsonFailure`. -/
theorem RequestData_decoder_error_not_wrapped :
    (RequestData (contextWith "application/json")
        (worldWith [ReadStep.chunk bodyMalformed])).err = some jsonFailure ∧
    ¬ ∃ kind, (RequestData (contextWith "application/json")
        (worldWith [ReadStep.chunk bodyMalformed])).err =
          some (GoError.wrapped kind jsonFailure) := by
  have h : (RequestData (contextWith "application/json")
      (worldWith [ReadStep.chunk bodyMalformed])).err = some jsonFailure := by decide
  refine ⟨h, ?_⟩
  rintro ⟨kind, hk⟩
  rw [h] at hk
  injection hk with hk
  simp [jsonFailure] at hk

/-- C6, amended: when the body read succeeds with bytes `b`, the registry gives a decoder `d`
for the request's Content-Type `h`, and `d` rejects `b` with failure `e`, then `RequestData`
fails with exactly `e`, handed on as the decoder returned it and not wrapped, next to whatever
value `v` the decoder left in the output (nil when it wrote nothing). -/
theorem RequestData_decoder_error (c : WebContext) (w : World) (b : Bytes) (h : String)
    (d : Codec) (v : Value) (e : GoError)
    (hok : (RequestBody c w).err = none)
    (hbytes : (RequestBody c w).bytes = b)
    (hh : (HttpRequest c).Header.Get "Content-Type" = h)
    (hd : (CodecServiceOf c).GetCodec h = Except.ok d)
    (hv : d.Unmarshal b = (v, some e)) :
    (RequestData c w).err = some e ∧ (RequestData c w).value = v ∧
    (RequestData c w).calls =
      (RequestBody c w).calls ++ [Call.getCodec h, Call.unmarshal b] := by
  simp only [HttpRequest] at hh
  simp only [CodecServiceOf] at hd
  subst hh
  rw [RequestData_of_codec c w d hok hd, hbytes, hv]
  exact ⟨rfl, rfl, rfl⟩

/-- Witness for C6 (amended): the malformed body `{"a":`. -/
theorem RequestData_decoder_error_witness :
    (RequestData (contextWith "application/json")
        (worldWith [ReadStep.chunk bodyMalformed])).err = some jsonFailure ∧
    (RequestData (contextWith "application/json")
        (worldWith [ReadStep.chunk bodyMalformed])).value = Value.null :=
  have h := RequestData_decoder_error (contextWith "application/json")
    (worldWith [ReadStep.chunk bodyMalformed]) bodyMalformed "application/json" jsonCodec
    Value.null jsonFailure (by decide) (by decide) (by decide) rfl rfl
  ⟨h.1, h.2.1⟩

/-! ## The sequence variant -/

theorem RequestDataArray_of_error (c : WebContext) (w : World) (e : GoError)
    (h : (RequestData c w).err = some e) :
    (RequestDataArray c w).outcome = Except.ok ([], some e) := by
  simp [RequestDataArray, h]

theorem RequestDataArray_of_sequence (c : WebContext) (w : World) (items : List Value)
    (h : (RequestData c w).err = none) (hv : (RequestData c w).value = Value.arr items) :
    (RequestDataArray c w).outcome = Except.ok (items, none) := by
  simp [RequestDataArray, h, hv]

theorem RequestDataArray_of_other (c : WebContext) (w : World)
    (h : (RequestData c w).err = none)
    (hv : ∀ items, (RequestData c w).value ≠ Value.arr items) :
    (RequestDataArray c w).outcome =
      Except.error (Panic.interfaceConversion "[]interface\x7b\x7d") := by
  unfold RequestDataArray
  generalize RequestData c w = d at h hv
  obtain ⟨value, err, ctx, world, calls⟩ := d
  simp only at h hv
  subst h
  cases value <;> first | rfl | exact absurd rfl (hv _)

/-- C3, on the code: with the body `{"a":1}` and the JSON content type, `RequestData` succeeds
with an object, and `RequestDataArray` then does not return a type-mismatch error: its
unchecked type assertion panics. (With the body `[1,2,3]` it returns the three items and no
error.) -/
theorem RequestDataArray_object_panics :
    (RequestData (contextWith "application/json")
        (worldWith [ReadStep.chunk bodyObject])).err = none ∧
    (RequestData (contextWith "application/json")
        (worldWith [ReadStep.chunk bodyObject])).value = Value.obj [("a", Value.num 1)] ∧
    (RequestDataArray (contextWith "application/json")
        (worldWith [ReadStep.chunk bodyObject])).outcome =
      Except.error (Panic.interfaceConversion "[]interface\x7b\x7d") ∧
    (RequestDataArray (contextWith "application/json")
        (worldWith [ReadStep.chunk bodyArray])).outcome =
      Except.ok ([Value.num 1, Value.num 2, Value.num 3], none) := by
  refine ⟨by decide, rfl, rfl, rfl⟩

/-! ## The data bag and the path parameters -/

theorem Table.index_assign_self (t : Table) (key : String) (v : Value) :
    (t.assign key v).index key = v := by
  simp [Table.index, Table.assign, List.lookup]

theorem World.table_mapAssign_self (w : World) (a : Nat) (key : String) (v : Value)
    (h : a < w.maps.length) :
    (w.mapAssign a key v).table a = (w.table a).assign key v := by
  simp [World.mapAssign, World.table, List.getD_eq_getElem?_getD, List.getElem?_set, h]

theorem World.table_mapAssign_other (w : World) (a b : Nat) (key : String) (v : Value)
    (h : b ≠ a) : (w.mapAssign a key v).table b = w.table b := by
  have h1 : ¬ a = b := fun hab => h hab.symm
  simp [World.mapAssign, World.table, List.getD_eq_getElem?_getD, List.getElem?_set, h1]

theorem World.table_makeMap_new (w : World) : w.makeMap.2.table w.maps.length = [] := by
  simp [World.makeMap, World.table, List.getD_eq_getElem?_getD]

theorem World.table_makeMap_other (w : World) (b : Nat) (h : b ≠ w.maps.length) :
    w.makeMap.2.table b = w.table b := by
  rcases Nat.lt_or_gt_of_ne h with hlt | hgt
  · simp [World.makeMap, World.table, List.getD_eq_getElem?_getD, List.getElem?_append_left, hlt]
  · have h1 : w.maps.length ≤ b := Nat.le_of_lt hgt
    have h2 : (w.maps ++ [([] : Table)]).length ≤ b := by
      simp only [List.length_append, List.length_singleton]; omega
    have h3 : (w.maps ++ [([] : Table)])[b]? = none := List.getElem?_eq_none h2
    have h4 : w.maps[b]? = none := List.getElem?_eq_none h1
    simp [World.makeMap, World.table, List.getD_eq_getElem?_getD, h3, h4]

theorem Data_of_nil (c : WebContext) (w : World) (h : c.data = none) :
    Data c w =
      (some w.maps.length, { c with data := some w.maps.length }, w.makeMap.2) := by
  simp [Data, h, World.makeMap]

theorem Data_of_map (c : WebContext) (w : World) (a : Nat) (h : c.data = some a) :
    Data c w = (some a, c, w) := by
  simp [Data, h]

theorem splitDots_ne_nil (cs : List Char) : splitDots cs ≠ [] := by
  cases cs with
  | nil => simp [splitDots]
  | cons ch rest =>
    unfold splitDots
    split
    · simp
    · split <;> simp

theorem splitDots_of_no_dot (cs : List Char) (h : '.' ∉ cs) : splitDots cs = [cs] := by
  induction cs with
  | nil => rfl
  | cons ch rest ih =>
    have hch : ch ≠ '.' := fun e => h (by simp [e])
    have hrest : '.' ∉ rest := fun e => h (List.mem_cons_of_mem _ e)
    simp [splitDots, hch, ih hrest]

theorem splitKeypath_of_no_dot (key : String) (h : '.' ∉ key.data) :
    splitKeypath key = [key] := by
  simp [splitKeypath, splitDots_of_no_dot key.data h]

theorem objects.Map.walk_empty (w : World) (field : String) (rest : List String) :
    objects.Map.walk w [] field rest = Value.null := by
  induction rest generalizing field with
  | nil => rfl
  | cons next rest ih => exact ih next

theorem objects.Map.Get_nil (w : World) (keypath : String) :
    objects.Map.Get w none keypath = Value.null := by
  unfold objects.Map.Get
  cases hs : splitKeypath keypath with
  | nil =>
    exfalso
    have hne := splitDots_ne_nil keypath.data
    simp only [splitKeypath, List.map_eq_nil_iff] at hs
    exact hne hs
  | cons field rest => exact objects.Map.walk_empty w field rest

theorem objects.Map.Get_of_no_dot (w : World) (d : Option Nat) (key : String)
    (h : '.' ∉ key.data) : objects.Map.Get w d key = w.mapIndex d key := by
  unfold objects.Map.Get
  rw [splitKeypath_of_no_dot key h]
  cases d <;> rfl

/-- C4, on the code: on a freshly constructed context, whatever the reserved key, the world and
the key asked for, `PathParam` does not return the empty string. The bag is nil, `PathParams`
looks the reserved key up in it, finds nothing, and the unchecked type assertion of `GetMap`
panics. -/
theorem PathParam_fresh_panics (DataKeyPathParameters : String) (responseWriter : ResponseWriter)
    (request : Request) (codecService : CodecService) (w : World) (key : String) :
    (NewWebContext responseWriter request codecService).data = none ∧
    PathParams DataKeyPathParameters (NewWebContext responseWriter request codecService) w
      = Except.error (Panic.interfaceConversion "objects.Map") ∧
    PathParam DataKeyPathParameters (NewWebContext responseWriter request codecService) w key
      = Except.error (Panic.interfaceConversion "objects.Map") := by
  have hpp : PathParams DataKeyPathParameters
      (NewWebContext responseWriter request codecService) w
        = Except.error (Panic.interfaceConversion "objects.Map") := by
    simp only [PathParams, objects.Map.GetMap, NewWebContext, objects.Map.Get_nil]
  refine ⟨rfl, hpp, ?_⟩
  simp only [PathParam, hpp]

theorem Data_ref_valid (c : WebContext) (w : World) (a : Nat)
    (hwf : ∀ b, c.data = some b → b < w.maps.length) (ha : (Data c w).1 = some a) :
    (Data c w).2.1.data = some a ∧ a < (Data c w).2.2.maps.length := by
  cases hd : c.data with
  | none =>
    rw [Data_of_nil c w hd] at ha ⊢
    simp only [Option.some.injEq] at ha
    subst ha
    simp [World.makeMap]
  | some b =>
    rw [Data_of_map c w b hd] at ha ⊢
    simp only [Option.some.injEq] at ha
    subst ha
    exact ⟨hd, hwf b hd⟩

/-- C9: `Data` never returns the nil map. On a context without a bag it makes a new empty
table, stores its reference in the context and returns it, touching no other table; on a
context with a bag it returns the stored reference and changes nothing. A second `Data`
returns the same reference and changes nothing, and an entry written through the returned
reference is read back through the reference a later `Data` returns. -/
theorem Data_shared (c : WebContext) (w : World)
    (hwf : ∀ b, c.data = some b → b < w.maps.length) :
    ∃ a, (Data c w).1 = some a ∧ (Data c w).2.1.data = some a ∧
      (c.data = none →
        a = w.maps.length ∧ (Data c w).2.1 = { c with data := some a } ∧
        (Data c w).2.2.table a = [] ∧
        (∀ b, b ≠ a → (Data c w).2.2.table b = w.table b) ∧
        (Data c w).2.2.bodies = w.bodies) ∧
      (c.data ≠ none → c.data = some a ∧ (Data c w).2.1 = c ∧ (Data c w).2.2 = w) ∧
      Data (Data c w).2.1 (Data c w).2.2 = (some a, (Data c w).2.1, (Data c w).2.2) ∧
      ∀ key v,
        Data (Data c w).2.1 ((Data c w).2.2.mapAssign a key v) =
          (some a, (Data c w).2.1, (Data c w).2.2.mapAssign a key v) ∧
        (Data (Data c w).2.1 ((Data c w).2.2.mapAssign a key v)).2.2.mapIndex
          (Data (Data c w).2.1 ((Data c w).2.2.mapAssign a key v)).1 key = v := by
  have hsome : ∃ a, (Data c w).1 = some a := by
    cases hd : c.data with
    | none => exact ⟨_, by rw [Data_of_nil c w hd]⟩
    | some b => exact ⟨b, by rw [Data_of_map c w b hd]⟩
  obtain ⟨a, ha⟩ := hsome
  obtain ⟨hdata, hvalid⟩ := Data_ref_valid c w a hwf ha
  have hagain : ∀ w1 : World, Data (Data c w).2.1 w1 = (some a, (Data c w).2.1, w1) :=
    fun w1 => Data_of_map _ w1 a hdata
  refine ⟨a, ha, hdata, ?_, ?_, hagain _, ?_⟩
  · intro hd
    rw [Data_of_nil c w hd] at ha ⊢
    simp only [Option.some.injEq] at ha
    subst ha
    exact ⟨rfl, rfl, World.table_makeMap_new w, fun b hb => World.table_makeMap_other w b hb, rfl⟩
  · intro hd
    obtain ⟨b, hb⟩ := Option.ne_none_iff_exists'.mp hd
    rw [Data_of_map c w b hb] at ha ⊢
    simp only [Option.some.injEq] at ha
    subst ha
    exact ⟨hb, rfl, rfl⟩
  · intro key v
    refine ⟨hagain _, ?_⟩
    rw [hagain]
    simp only [World.mapIndex]
    rw [World.table_mapAssign_self _ a key v hvalid, Table.index_assign_self]

/-- Witness for C9: a context that already has a bag. -/
theorem Data_shared_witness :
    ∃ a, (Data { contextWith "application/json" with data := some 0 } ⟨[[]], []⟩).1 = some a :=
  have h := Data_shared { contextWith "application/json" with data := some 0 } ⟨[[]], []⟩
    (by intro b hb; cases hb; decide)
  h.imp (fun _ ha => ha.1)

/-- C8, as stated, fails. With the sub-map `m` holding `"x"` under the key `"a.b"` and stored
in the bag under the reserved key, `m["a.b"]` is the string `"x"`, yet `PathParam "a.b"`
returns the empty string: `Get` reads the key as the path `a`, `b`. And when the sub-map stored
is a plain `map[string]interface{}` and not an `objects.Map`, `PathParam` panics. -/
theorem PathParam_dotted_key_differs :
    ((Data (contextWith "application/json") worldWithDottedParam).2.2.mapAssign 1
        "pathParameters" (Value.omap (some 0))).mapIndex (some 0) "a.b" = Value.str "x" ∧
    PathParam "pathParameters" (Data (contextWith "application/json") worldWithDottedParam).2.1
      ((Data (contextWith "application/json") worldWithDottedParam).2.2.mapAssign 1
        "pathParameters" (Value.omap (some 0))) "a.b" = Except.ok "" ∧
    PathParam "pathParameters" (Data (contextWith "application/json") worldWithDottedParam).2.1
      ((Data (contextWith "application/json") worldWithDottedParam).2.2.mapAssign 1
        "pathParameters" (Value.obj [("id", Value.str "42")])) "id"
      = Except.error (Panic.interfaceConversion "objects.Map") := by
  exact ⟨rfl, rfl, rfl⟩

/-- C8, amended: take the bag from `Data()` and store a sub-map `m`, held as an `objects.Map`,
in it under the reserved key (a key without `"."`). Then the path parameters are `m`, and for
every key `k` without `"."`, `PathParam k` returns `m[k]` when that is a string and the empty
string when `k` is absent from `m` or `m[k]` is not a string. `m[k]` is read when `PathParam`
runs; unless `m` is the bag itself, it is what `m[k]` was before the store. -/
theorem PathParam_after_store (DataKeyPathParameters : String) (c : WebContext) (w : World)
    (a : Nat) (m : Option Nat) (k : String)
    (hwf : ∀ b, c.data = some b → b < w.maps.length)
    (ha : (Data c w).1 = some a)
    (hK : '.' ∉ DataKeyPathParameters.data)
    (hk : '.' ∉ k.data) :
    PathParams DataKeyPathParameters (Data c w).2.1
      ((Data c w).2.2.mapAssign a DataKeyPathParameters (Value.omap m)) = Except.ok m ∧
    (∀ s, ((Data c w).2.2.mapAssign a DataKeyPathParameters (Value.omap m)).mapIndex m k
        = Value.str s →
      PathParam DataKeyPathParameters (Data c w).2.1
        ((Data c w).2.2.mapAssign a DataKeyPathParameters (Value.omap m)) k = Except.ok s) ∧
    ((∀ s, ((Data c w).2.2.mapAssign a DataKeyPathParameters (Value.omap m)).mapIndex m k
        ≠ Value.str s) →
      PathParam DataKeyPathParameters (Data c w).2.1
        ((Data c w).2.2.mapAssign a DataKeyPathParameters (Value.omap m)) k = Except.ok "") ∧
    (m ≠ some a →
      ((Data c w).2.2.mapAssign a DataKeyPathParameters (Value.omap m)).mapIndex m k
        = w.mapIndex m k) := by
  obtain ⟨hdata, hvalid⟩ := Data_ref_valid c w a hwf ha
  have hpp : PathParams DataKeyPathParameters (Data c w).2.1
      ((Data c w).2.2.mapAssign a DataKeyPathParameters (Value.omap m)) = Except.ok m := by
    simp only [PathParams, objects.Map.GetMap, hdata]
    rw [objects.Map.Get_of_no_dot _ _ _ hK]
    simp only [World.mapIndex]
    rw [World.table_mapAssign_self _ a _ _ hvalid, Table.index_assign_self]
  refine ⟨hpp, ?_, ?_, ?_⟩
  · intro s hs
    unfold PathParam
    rw [hpp]
    simp only
    rw [objects.Map.Get_of_no_dot _ _ _ hk, hs]
  · intro hs
    unfold PathParam
    rw [hpp]
    simp only
    rw [objects.Map.Get_of_no_dot _ _ _ hk]
    split
    · rename_i s hval
      exact absurd hval (hs s)
    · rfl
  · intro hm
    cases m with
    | none => rfl
    | some am =>
      have hne : am ≠ a := fun h => hm (by rw [h])
      simp only [World.mapIndex]
      rw [World.table_mapAssign_other _ a am _ _ hne]
      cases hd : c.data with
      | none =>
        rw [Data_of_nil c w hd] at ha ⊢
        simp only [Option.some.injEq] at ha
        rw [World.table_makeMap_other w am (by rw [ha]; exact hne)]
      | some b =>
        rw [Data_of_map c w b hd]

/-- Witness for C8 (amended): the sub-map `{"id":"42"}`. -/
theorem PathParam_after_store_witness :
    PathParam "pathParameters" (Data (contextWith "application/json") worldWithParams).2.1
      ((Data (contextWith "application/json") worldWithParams).2.2.mapAssign 1 "pathParameters"
        (Value.omap (some 0))) "id" = Except.ok "42" ∧
    PathParam "pathParameters" (Data (contextWith "application/json") worldWithParams).2.1
      ((Data (contextWith "application/json") worldWithParams).2.2.mapAssign 1 "pathParameters"
        (Value.omap (some 0))) "missing" = Except.ok "" :=
  ⟨(PathParam_after_store "pathParameters" (contextWith "application/json") worldWithParams 1
      (some 0) "id" (by intro b hb; cases hb) rfl (by decide) (by decide)).2.1 "42" rfl,
   (PathParam_after_store "pathParameters" (contextWith "application/json") worldWithParams 1
      (some 0) "missing" (by intro b hb; cases hb) rfl (by decide) (by decide)).2.2.1
      (fun s hs => by cases hs)⟩

/-! ## The setters -/

/-- C10: `SetHttpRequest` replaces the stored request and nothing else, and
`SetHttpResponseWriter` replaces the stored response writer and nothing else. So after
`SetHttpRequest` on a context whose body cache is not empty, `Path()` is still the path parsed
at construction and `RequestBody` returns the cached bytes with no call to any stream, the
world (the new request's body included) being left as it was. -/
theorem setters_swap_reference_only (c : WebContext) (r : Request) (rw : ResponseWriter)
    (w : World) :
    (HttpRequest (SetHttpRequest c r) = r ∧
      PathOf (SetHttpRequest c r) = PathOf c ∧
      (SetHttpRequest c r).requestBody = c.requestBody ∧
      (SetHttpRequest c r).data = c.data ∧
      CodecServiceOf (SetHttpRequest c r) = CodecServiceOf c ∧
      HttpResponseWriter (SetHttpRequest c r) = HttpResponseWriter c) ∧
    (HttpResponseWriter (SetHttpResponseWriter c rw) = rw ∧
      PathOf (SetHttpResponseWriter c rw) = PathOf c ∧
      (SetHttpResponseWriter c rw).requestBody = c.requestBody ∧
      (SetHttpResponseWriter c rw).data = c.data ∧
      CodecServiceOf (SetHttpResponseWriter c rw) = CodecServiceOf c ∧
      HttpRequest (SetHttpResponseWriter c rw) = HttpRequest c) ∧
    (∀ responseWriter request codecService,
      PathOf (SetHttpRequest (NewWebContext responseWriter request codecService) r) =
        NewPath request.URLPath) ∧
    (c.requestBody ≠ [] →
      RequestBody (SetHttpRequest c r) w = ⟨c.requestBody, none, SetHttpRequest c r, w, []⟩) := by
  refine ⟨⟨rfl, rfl, rfl, rfl, rfl, rfl⟩, ⟨rfl, rfl, rfl, rfl, rfl, rfl⟩, fun _ _ _ => rfl, ?_⟩
  intro hc
  exact RequestBody_cached (SetHttpRequest c r) w hc

/-- Witness for C10: the body is read, then the request is replaced by one for another path with
an unread body. -/
theorem setters_swap_reference_only_witness :
    PathOf (SetHttpRequest (RequestBody (contextWith "application/json") worldTwoBodies).ctx
      otherRequest) = NewPath "/people/123" ∧
    (RequestBody
      (SetHttpRequest (RequestBody (contextWith "application/json") worldTwoBodies).ctx
        otherRequest)
      (RequestBody (contextWith "application/json") worldTwoBodies).world).bytes
        = bodyObject ∧
    (RequestBody
      (SetHttpRequest (RequestBody (contextWith "application/json") worldTwoBodies).ctx
        otherRequest)
      (RequestBody (contextWith "application/json") worldTwoBodies).world).calls = [] :=
  have h := (setters_swap_reference_only
    (RequestBody (contextWith "application/json") worldTwoBodies).ctx otherRequest ⟨0⟩
    (RequestBody (contextWith "application/json") worldTwoBodies).world).2.2.2 (by decide)
  ⟨rfl, by rw [h]; rfl, by rw [h]⟩

end webcontext
